import Mathlib

/-!
Verification of the storage-backend repository: a shallow embedding of the
backend abstraction (local filesystem, HTTP, S3, GCS), the semaphore-based
concurrency wrapper, the settings-driven factory, and the batch transfer
orchestrator, with theorems settling the specified properties.
-/

/-- Payloads are opaque byte sequences; bytes are modelled as naturals. -/
abbrev Bytes := List Nat

/-- Error taxonomy of the storage contract. -/
inductive StorageError
  | notFound (key : String)
  | unsupported (msg : String)
  | transport (msg : String)
deriving DecidableEq, Repr

deriving instance DecidableEq for Except

/-! ## Semaphore-bounded concurrency model

Embeds the acquire/release discipline of asyncio.Semaphore as used by
PooledStorage (examples/download_s3.py) and S3Storage (s3.py): a counter
holding the available permits; acquire waits until the counter is positive
and decrements it; release increments it.  Each caller task is in one of
three phases: idle (not inside a get/put call), waiting (blocked on the
semaphore), or active (holding a permit while the delegated backend call is
in flight). -/

/-- Phase of one caller task of a pooled backend. -/
inductive TaskPhase
  | idle
  | waiting
  | active
deriving DecidableEq, Repr

/-- Global state of a pooled backend: available permits plus the multiset of
caller-task phases. -/
structure PoolState where
  permits : Nat
  tasks : Multiset TaskPhase
deriving DecidableEq

/-- One scheduler step of the pooled backend: a task enters a get/put call,
acquires the semaphore (only possible when a permit is available), or
finishes the delegated call and releases the semaphore. -/
inductive PoolStep : PoolState → PoolState → Prop
  | request (p : Nat) (t : Multiset TaskPhase) :
      PoolStep ⟨p, TaskPhase.idle ::ₘ t⟩ ⟨p, TaskPhase.waiting ::ₘ t⟩
  | acquire (p : Nat) (t : Multiset TaskPhase) :
      PoolStep ⟨p + 1, TaskPhase.waiting ::ₘ t⟩ ⟨p, TaskPhase.active ::ₘ t⟩
  | release (p : Nat) (t : Multiset TaskPhase) :
      PoolStep ⟨p, TaskPhase.active ::ₘ t⟩ ⟨p + 1, TaskPhase.idle ::ₘ t⟩

/-- Initial state: the wrapper is built with capacity maxConcurrent and n
idle caller tasks. -/
def poolInit (maxConcurrent : Nat) (n : Nat) : PoolState :=
  ⟨maxConcurrent, Multiset.replicate n TaskPhase.idle⟩

/-- Number of delegated backend calls currently in flight. -/
def activeCount (s : PoolState) : Nat :=
  s.tasks.count TaskPhase.active

/-- States reachable by the cooperative scheduler from a given state. -/
def PoolReachable (s t : PoolState) : Prop :=
  Relation.ReflTransGen PoolStep s t

/-- Permit-accounting invariant: available permits plus in-flight delegated
calls always equal the configured capacity. -/
def poolInv (maxConcurrent : Nat) (s : PoolState) : Prop :=
  s.permits + activeCount s = maxConcurrent

lemma poolStep_preserves_inv {N : Nat} {s t : PoolState}
    (hst : PoolStep s t) (hs : poolInv N s) : poolInv N t := by
  cases hst with
  | request p m =>
      simp [poolInv, activeCount, Multiset.count_cons] at hs ⊢
      omega
  | acquire p m =>
      simp [poolInv, activeCount, Multiset.count_cons] at hs ⊢
      omega
  | release p m =>
      simp [poolInv, activeCount, Multiset.count_cons] at hs ⊢
      omega

lemma poolInv_init (N n : Nat) : poolInv N (poolInit N n) := by
  simp [poolInv, poolInit, activeCount, Multiset.count_replicate]

lemma poolReachable_inv {N : Nat} {s : PoolState}
    (h : PoolReachable (poolInit N n) s) : poolInv N s := by
  induction h with
  | refl => exact poolInv_init N n
  | tail _ hstep ih => exact poolStep_preserves_inv hstep ih

/-- C1: for every backend wrapped with a concurrency limit N (N ≥ 1), and
for any number n of concurrent caller tasks, in every state the scheduler
can reach, at most N delegated get/put invocations are simultaneously
active on the wrapped backend. -/
theorem pool_active_le_limit (N n : Nat) (s : PoolState)
    (hN : 1 ≤ N) (h : PoolReachable (poolInit N n) s) :
    activeCount s ≤ N := by
  have hinv := poolReachable_inv h
  unfold poolInv at hinv
  omega

/-- Witness for C1: with capacity 1 and two callers, after one caller
requests, acquires and goes active, the active count is within the bound. -/
theorem pool_active_le_limit_witness :
    activeCount ⟨0, TaskPhase.active ::ₘ {TaskPhase.idle}⟩ ≤ 1 := by
  refine pool_active_le_limit 1 2 _ (by decide) ?_
  have h1 : PoolStep (poolInit 1 2) ⟨1, TaskPhase.waiting ::ₘ {TaskPhase.idle}⟩ := by
    have h0 : poolInit 1 2 = ⟨1, TaskPhase.idle ::ₘ {TaskPhase.idle}⟩ := rfl
    rw [h0]
    exact PoolStep.request 1 {TaskPhase.idle}
  have h2 : PoolStep ⟨1, TaskPhase.waiting ::ₘ {TaskPhase.idle}⟩
      ⟨0, TaskPhase.active ::ₘ {TaskPhase.idle}⟩ :=
    PoolStep.acquire 0 {TaskPhase.idle}
  exact Relation.ReflTransGen.tail (Relation.ReflTransGen.single h1) h2

/-! ## Scoped acquire/release of one pooled call

PooledStorage.get and PooledStorage.put wrap the delegated call in
an async-with block on the semaphore: acquire on entry, release on every
exit path (normal return or raised error), the error then propagating. -/

/-- Semaphore events emitted by one pooled call. -/
inductive SemEvent
  | acq
  | rel
deriving DecidableEq, Repr

/-- Acquire the semaphore (callable once a permit is available): decrement
the counter. -/
def semAcquire (sem : Nat) : Nat × List SemEvent :=
  (sem - 1, [SemEvent.acq])

/-- Release the semaphore: increment the counter. -/
def semRelease (sem : Nat) : Nat × List SemEvent :=
  (sem + 1, [SemEvent.rel])

/-- One completed PooledStorage.get call: acquire, run the delegated
backend.get (whose outcome is given), release on exit whether the delegate
returned or raised, and propagate the outcome. -/
def pooledGet (sem : Nat) (delegate : Except StorageError Bytes) :
    Nat × List SemEvent × Except StorageError Bytes :=
  let a := semAcquire sem
  let r := delegate
  let b := semRelease a.1
  (b.1, a.2 ++ b.2, r)

/-- C5: when the delegated call raises, the pooled call releases the permit
exactly once, and the available-permit count after the call equals the
count before it; the error propagates unchanged. -/
theorem pooled_permit_restored_on_error
    (sem : Nat) (e : StorageError) (hsem : 1 ≤ sem) :
    (pooledGet sem (Except.error e)).1 = sem ∧
    ((pooledGet sem (Except.error e)).2.1.count SemEvent.rel = 1) ∧
    (pooledGet sem (Except.error e)).2.2 = Except.error e := by
  refine ⟨?_, ?_, rfl⟩
  · simp only [pooledGet, semAcquire, semRelease]
    omega
  · rfl

/-- Witness for C5: a pooled call over one available permit whose delegate
fails with a transport error restores the count and releases once. -/
theorem pooled_permit_restored_on_error_witness :
    (pooledGet 1 (Except.error (StorageError.transport "boom"))).1 = 1 ∧
    ((pooledGet 1 (Except.error (StorageError.transport "boom"))).2.1.count SemEvent.rel = 1) ∧
    (pooledGet 1 (Except.error (StorageError.transport "boom"))).2.2 =
      Except.error (StorageError.transport "boom") :=
  pooled_permit_restored_on_error 1 (StorageError.transport "boom") (by decide)

/-! ## Local filesystem backend

Embeds LocalStorage (local.py).  The filesystem is a pair of a file table
(absolute path to byte contents) and a set of directories.  Paths are lists
of components; joining with pathlib semantics collapses empty components and
single dots, and an absolute key discards the root. -/

/-- Absolute path, as its list of components. -/
abbrev FsPath := List String

/-- Splits a character list on slash characters. -/
def splitSlashAux : List Char → List Char → List (List Char)
  | [], acc => [acc.reverse]
  | c :: cs, acc =>
      if c = '/' then acc.reverse :: splitSlashAux cs []
      else splitSlashAux cs (c :: acc)

/-- Components of a key string under pathlib normalisation: split on
slashes, dropping empty components and single dots. -/
def pathSegs (s : String) : List String :=
  ((splitSlashAux s.data []).map (fun cs => String.mk cs)).filter
    (fun seg => seg ≠ "" && seg ≠ ".")

/-- Whether a key string denotes an absolute path. -/
def startsWithSlash (s : String) : Bool :=
  match s.data with
  | [] => false
  | c :: _ => c = '/'

/-- Embeds the pathlib join root / key: an absolute key discards the root. -/
def pyJoin (root : FsPath) (key : String) : FsPath :=
  if startsWithSlash key then pathSegs key else root ++ pathSegs key

/-- Filesystem state: regular files with their contents, and directories. -/
structure LocalFs where
  files : List (FsPath × Bytes)
  dirs : List FsPath
deriving DecidableEq, Repr

/-- State right after LocalStorage.__init__ on an empty filesystem: the root
directory and all its ancestors exist. -/
def localInit (root : FsPath) : LocalFs :=
  { files := [], dirs := root.inits }

/-- Embeds Path.mkdir(parents=True, exist_ok=True): create each missing
ancestor in top-down order; fail when a regular file occupies one of them. -/
def mkdirSeq (files : List (FsPath × Bytes)) :
    List FsPath → List FsPath → List FsPath × Bool
  | dirs, [] => (dirs, true)
  | dirs, p :: rest =>
      if (List.lookup p files).isSome then (dirs, false)
      else mkdirSeq files (if p ∈ dirs then dirs else dirs ++ [p]) rest

/-- Embeds LocalStorage.put: path = root / key, create the parent directory
chain, then write the bytes at the path, creating or overwriting; writing
fails when a directory occupies the target path, and the parent creation
fails when a regular file occupies an ancestor. -/
def localPut (root : FsPath) (fs : LocalFs) (key : String) (data : Bytes) :
    LocalFs × Except StorageError Unit :=
  let path := pyJoin root key
  let md := mkdirSeq fs.files fs.dirs path.dropLast.inits
  if !md.2 then
    ({ fs with dirs := md.1 }, Except.error (StorageError.transport "FileExistsError"))
  else if path ∈ md.1 then
    ({ fs with dirs := md.1 }, Except.error (StorageError.transport "IsADirectoryError"))
  else
    ({ files := (path, data) :: fs.files.filter (fun pb => pb.1 ≠ path), dirs := md.1 },
      Except.ok ())

/-- Embeds LocalStorage.get: path = root / key; raise FileNotFoundError when
nothing exists at the path; otherwise read the bytes, an IsADirectoryError
surfacing when a directory occupies the path.  The filesystem is returned
unchanged: get performs no mutation. -/
def localGet (root : FsPath) (fs : LocalFs) (key : String) :
    LocalFs × Except StorageError Bytes :=
  let path := pyJoin root key
  if (List.lookup path fs.files).isNone && !(fs.dirs.contains path) then
    (fs, Except.error (StorageError.notFound key))
  else
    match List.lookup path fs.files with
    | some b => (fs, Except.ok b)
    | none => (fs, Except.error (StorageError.transport "IsADirectoryError"))

/-- C4 (amended): whenever put(k, p) succeeds on a Local backend, a
following get(k) returns a payload byte-for-byte equal to p. -/
theorem local_put_get_roundtrip (root : FsPath) (fs : LocalFs) (key : String)
    (data : Bytes) (h : (localPut root fs key data).2 = Except.ok ()) :
    (localGet root (localPut root fs key data).1 key).2 = Except.ok data := by
  by_cases h1 : (mkdirSeq fs.files fs.dirs (pyJoin root key).dropLast.inits).2
  · by_cases h2 :
        pyJoin root key ∈ (mkdirSeq fs.files fs.dirs (pyJoin root key).dropLast.inits).1
    · simp [localPut, h1, h2] at h
    · simp [localPut, h1, h2] at h ⊢
      simp [localGet, List.lookup]
  · simp [localPut, h1] at h

/-- Witness for C4: on a fresh Local backend, putting then getting the key
a returns the stored payload. -/
theorem local_put_get_roundtrip_witness :
    (localPut ["r"] (localInit ["r"]) "a" [1, 2]).2 = Except.ok () ∧
    (localGet ["r"] (localPut ["r"] (localInit ["r"]) "a" [1, 2]).1 "a").2 =
      Except.ok [1, 2] :=
  ⟨by decide, local_put_get_roundtrip ["r"] (localInit ["r"]) "a" [1, 2] (by decide)⟩

/-- Filesystem of a fresh Local backend rooted at r after putting the key
a/b, which creates the directory r/a as a side effect. -/
def localFsAfterNestedPut : LocalFs :=
  (localPut ["r"] (localInit ["r"]) "a/b" [1]).1

/-- Counterexample to C4 as stated: on a reachable Local backend state (after
put("a/b", [1])), put("a", [2]) fails because a directory occupies the path,
and the following get("a") does not return [2]. -/
theorem local_roundtrip_counterexample :
    (localPut ["r"] localFsAfterNestedPut "a" [2]).2 =
      Except.error (StorageError.transport "IsADirectoryError") ∧
    (localGet ["r"] (localPut ["r"] localFsAfterNestedPut "a" [2]).1 "a").2 ≠
      Except.ok [2] := by
  decide

/-- C8 (amended): when neither a file nor a directory exists at the path of
key k, get(k) on a Local backend fails with NotFound and leaves the
filesystem state unchanged, creating no file. -/
theorem local_get_notfound (root : FsPath) (fs : LocalFs) (key : String)
    (h1 : (List.lookup (pyJoin root key) fs.files).isNone = true)
    (h2 : fs.dirs.contains (pyJoin root key) = false) :
    localGet root fs key = (fs, Except.error (StorageError.notFound key)) := by
  have hcond : ((List.lookup (pyJoin root key) fs.files).isNone &&
      !(fs.dirs.contains (pyJoin root key))) = true := by
    rw [h1, h2]
    rfl
  simp only [localGet]
  simp only [hcond]
  rfl

/-- Witness for C8: getting an absent key on a fresh Local backend fails
with NotFound and changes nothing. -/
theorem local_get_notfound_witness :
    localGet ["r"] (localInit ["r"]) "x" =
      (localInit ["r"], Except.error (StorageError.notFound "x")) :=
  local_get_notfound ["r"] (localInit ["r"]) "x" (by decide) (by decide)

/-- Counterexample to C8 as stated: after put("a/b"), no object is stored at
the key a, yet get("a") fails with a transport-level IsADirectoryError, not
with NotFound. -/
theorem local_get_notfound_counterexample :
    List.lookup (pyJoin ["r"] "a") localFsAfterNestedPut.files = none ∧
    (localGet ["r"] localFsAfterNestedPut "a").2 =
      Except.error (StorageError.transport "IsADirectoryError") := by
  decide

/-! ## String stripping helpers

Embeddings of the Python string operations rstrip("/"), lstrip("/") and
strip("/") used by the HTTP, S3 and GCS constructors. -/

/-- Embeds rstrip("/"): remove every trailing slash. -/
def pyRstripSlash (s : String) : String :=
  String.mk (s.data.reverse.dropWhile (fun c => c = '/')).reverse

/-- Embeds lstrip("/"): remove every leading slash. -/
def pyLstripSlash (s : String) : String :=
  String.mk (s.data.dropWhile (fun c => c = '/'))

/-- Embeds strip("/"): remove every leading and trailing slash. -/
def pyStripSlash (s : String) : String :=
  pyRstripSlash (pyLstripSlash s)

/-! ## HTTP backend (read-only)

Embeds HTTPStorage (http.py).  Calls report the list of URLs they request
from the underlying HTTP client, so that performing no I/O is observable. -/

/-- Configuration state of HTTPStorage. -/
structure HTTPState where
  base_url : String
  headers : List (String × String)
  maxConcurrent : Nat
deriving DecidableEq, Repr

/-- Embeds HTTPStorage.__init__: trailing slashes of the base URL are
stripped; the semaphore capacity is max_concurrent. -/
def httpInit (base_url : String) (headers : List (String × String))
    (max_concurrent : Nat) : HTTPState :=
  { base_url := pyRstripSlash base_url, headers := headers,
    maxConcurrent := max_concurrent }

/-- Embeds HTTPStorage.get: build url = base_url + "/" + key and issue the
request under the semaphore; the response oracle gives the outcome of the
underlying client call. -/
def httpGet (st : HTTPState) (key : String)
    (response : String → Except StorageError Bytes) :
    HTTPState × List String × Except StorageError Bytes :=
  let url := st.base_url ++ "/" ++ key
  (st, [url], response url)

/-- Embeds HTTPStorage.put: the body is a single raise of the read-only
error; no request is issued and no state is touched. -/
def httpPut (st : HTTPState) (key : String) (data : Bytes) :
    HTTPState × List String × Except StorageError Unit :=
  (st, [], Except.error (StorageError.unsupported "HTTP backend is read-only"))

/-- C9: put on the read-only HTTP backend always fails with Unsupported,
issues no request to the client, and leaves the backend state unchanged,
while get on the same state does reach the client. -/
theorem http_put_unsupported :
    (∀ st key data, httpPut st key data =
      (st, [], Except.error (StorageError.unsupported "HTTP backend is read-only"))) ∧
    (∀ st key response, (httpGet st key response).2.1 = [st.base_url ++ "/" ++ key]) :=
  ⟨fun _ _ _ => rfl, fun _ _ _ => rfl⟩

/-! ## S3 backend object naming

Embeds the key-to-object-name computation of S3Storage (s3.py). -/

/-- Configuration state of S3Storage after __init__: bucket with slashes
stripped at both ends, and the stored object-name stem, which is the
configured stem stripped of slashes with a single slash appended. -/
structure S3State where
  bucket : String
  pfx : String
deriving DecidableEq, Repr

/-- Embeds S3Storage.__init__ for bucket and the object-name stem (the field
named prefix in the source). -/
def s3Init (bucket : String) (pfxArg : String) : S3State :=
  { bucket := pyStripSlash bucket, pfx := pyStripSlash pfxArg ++ "/" }

/-- Object name addressed by S3Storage.put for a key. -/
def s3PutObjectName (st : S3State) (key : String) : String :=
  st.pfx ++ pyLstripSlash key

/-- Object name addressed by S3Storage.get for a key. -/
def s3GetObjectName (st : S3State) (key : String) : String :=
  st.pfx ++ pyLstripSlash key

/-- C10: both put and get address the object named (configured stem stripped
of slashes at both ends) + "/" + (key stripped of leading slashes); with the
default empty stem, every object name begins with a slash. -/
theorem s3_object_name (bucket pfxArg key : String) :
    s3PutObjectName (s3Init bucket pfxArg) key =
      pyStripSlash pfxArg ++ "/" ++ pyLstripSlash key ∧
    s3GetObjectName (s3Init bucket pfxArg) key =
      pyStripSlash pfxArg ++ "/" ++ pyLstripSlash key ∧
    startsWithSlash (s3PutObjectName (s3Init bucket "") key) = true := by
  refine ⟨rfl, rfl, ?_⟩
  have h : s3PutObjectName (s3Init bucket "") key = "/" ++ pyLstripSlash key := rfl
  rw [h]
  unfold startsWithSlash
  rw [String.data_append]
  rfl

/-! ## Settings and the backend factory

Embeds the settings models (settings.py) and build_storage
(examples/download_s3.py). -/

/-- Settings for local filesystem storage: root_dir is required. -/
structure LocalSettings where
  root_dir : String
deriving DecidableEq, Repr

/-- Settings for HTTP storage: base_url is required, headers default to the
empty mapping. -/
structure HTTPSettings where
  base_url : String
  headers : List (String × String)
deriving DecidableEq, Repr

/-- Settings for S3 storage: bucket is required, the stem (the field named
prefix in the source) defaults to the empty string. -/
structure S3Settings where
  bucket : String
  pfx : String
deriving DecidableEq, Repr

/-- Settings for GCS storage: bucket is required, the stem defaults to the
empty string. -/
structure GCSSettings where
  bucket : String
  pfx : String
deriving DecidableEq, Repr

/-- Union of the four settings variants, discriminated by the backend tag. -/
inductive BackendSettings
  | localS (s : LocalSettings)
  | httpS (s : HTTPSettings)
  | s3S (s : S3Settings)
  | gcsS (s : GCSSettings)
deriving DecidableEq, Repr

/-- Discriminator tag of a settings value. -/
def settingsKind : BackendSettings → String
  | .localS _ => "local"
  | .httpS _ => "http"
  | .s3S _ => "s3"
  | .gcsS _ => "gcs"

/-- Constructed backend instance, carrying its construction-time parameters
and, for the variants that own a semaphore, its capacity. -/
inductive Backend
  | localB (root : String)
  | httpB (base_url : String) (headers : List (String × String)) (maxConcurrent : Nat)
  | s3B (bucket : String) (pfx : String) (maxConcurrent : Nat)
  | gcsB (bucket : String) (pfx : String) (maxConcurrent : Nat)
deriving DecidableEq, Repr

/-- Variant tag of a constructed backend. -/
def backendKind : Backend → String
  | .localB _ => "local"
  | .httpB _ _ _ => "http"
  | .s3B _ _ _ => "s3"
  | .gcsB _ _ _ => "gcs"

/-- Concurrency bound of a constructed backend: the capacity of its
semaphore, or none when the implementation has no semaphore at all, which
is the case for LocalStorage. -/
def concurrencyBound : Backend → Option Nat
  | .localB _ => none
  | .httpB _ _ m => some m
  | .s3B _ _ m => some m
  | .gcsB _ _ m => some m

/-- Embeds build_storage: dispatch on the settings variant and run the
matching constructor.  Only the s3 arm forwards max_concurrent; the http and
gcs arms leave the constructor default of 1; the local arm constructs
LocalStorage, which has no concurrency machinery. -/
def build_storage (s : BackendSettings) (max_concurrent : Nat) : Backend :=
  match s with
  | .localS c => .localB c.root_dir
  | .httpS c => .httpB (pyRstripSlash c.base_url) c.headers 1
  | .s3S c => .s3B (pyStripSlash c.bucket) (pyStripSlash c.pfx ++ "/") max_concurrent
  | .gcsS c => .gcsB c.bucket (pyLstripSlash c.pfx ++ "/") 1

/-- C6: the factory always returns the variant matching the settings tag,
and the s3 arm is bounded by the requested limit; but the local arm, run
here at the failing input kind local with limit 2, yields a backend with no
concurrency bound at all, so its get/put concurrency is not bounded by the
limit. -/
theorem build_storage_local_unbounded :
    (∀ s m, backendKind (build_storage s m) = settingsKind s) ∧
    concurrencyBound (build_storage (BackendSettings.s3S ⟨"b", ""⟩) 2) = some 2 ∧
    concurrencyBound (build_storage (BackendSettings.localS ⟨"/tmp/x"⟩) 2) = none := by
  refine ⟨?_, rfl, rfl⟩
  intro s m
  cases s <;> rfl

/-- Untyped configuration record before validation: a discriminator tag and
the optional kind-specific fields. -/
structure RawConfig where
  backend : String
  root_dir : Option String
  base_url : Option String
  headers : Option (List (String × String))
  bucket : Option String
  pfx : Option String
deriving DecidableEq, Repr

/-- Factory-level errors, raised before any backend instance exists. -/
inductive ConfigError
  | configurationError (field : String)
  | unsupportedKind (kind : String)
deriving DecidableEq, Repr

/-- Embeds the pydantic validation of the discriminated settings union
(settings.py): an unknown discriminator is rejected, a missing required
field of the selected variant is a validation error, and the defaulted
fields fall back to the empty mapping or the empty string. -/
def validateSettings (c : RawConfig) : Except ConfigError BackendSettings :=
  if c.backend = "local" then
    match c.root_dir with
    | some r => Except.ok (BackendSettings.localS ⟨r⟩)
    | none => Except.error (ConfigError.configurationError "root_dir")
  else if c.backend = "http" then
    match c.base_url with
    | some u => Except.ok (BackendSettings.httpS ⟨u, c.headers.getD []⟩)
    | none => Except.error (ConfigError.configurationError "base_url")
  else if c.backend = "s3" then
    match c.bucket with
    | some b => Except.ok (BackendSettings.s3S ⟨b, c.pfx.getD ""⟩)
    | none => Except.error (ConfigError.configurationError "bucket")
  else if c.backend = "gcs" then
    match c.bucket with
    | some b => Except.ok (BackendSettings.gcsS ⟨b, c.pfx.getD ""⟩)
    | none => Except.error (ConfigError.configurationError "bucket")
  else
    Except.error (ConfigError.unsupportedKind c.backend)

/-- Full configuration-to-backend path: validate the raw record, then run
build_storage on the validated settings.  On a validation error no settings
value exists, so build_storage is never applied and no backend instance is
constructed. -/
def storageFactory (c : RawConfig) (max_concurrent : Nat) : Except ConfigError Backend :=
  (validateSettings c).map (fun s => build_storage s max_concurrent)

/-- Known discriminator values. -/
def knownKinds : List String := ["local", "http", "s3", "gcs"]

/-- Required field of the selected kind that is absent from a raw record,
if any. -/
def missingRequiredField (c : RawConfig) : Option String :=
  if c.backend = "local" ∧ c.root_dir = none then some "root_dir"
  else if c.backend = "http" ∧ c.base_url = none then some "base_url"
  else if (c.backend = "s3" ∨ c.backend = "gcs") ∧ c.bucket = none then some "bucket"
  else none

/-- C7: when a field required by the selected kind is missing, the factory
fails with a configuration error naming it, and when the discriminator
matches no known variant it fails with the unsupported-kind error; in both
cases the result is an error, so no backend instance is constructed. -/
theorem factory_validation_errors (c : RawConfig) (m : Nat) :
    (∀ f, missingRequiredField c = some f →
      storageFactory c m = Except.error (ConfigError.configurationError f)) ∧
    (c.backend ∉ knownKinds →
      storageFactory c m = Except.error (ConfigError.unsupportedKind c.backend)) := by
  constructor
  · intro f hf
    unfold missingRequiredField at hf
    split_ifs at hf with h1 h2 h3
    · cases Option.some.inj hf
      simp [storageFactory, validateSettings, Except.map, h1.1, h1.2]
    · cases Option.some.inj hf
      simp [storageFactory, validateSettings, Except.map, h2.1, h2.2]
    · cases Option.some.inj hf
      rcases h3 with ⟨hk, hb⟩
      rcases hk with hk | hk <;>
        simp [storageFactory, validateSettings, Except.map, hk, hb]
  · intro hk
    have h1 : ¬ c.backend = "local" := fun h => hk (by simp [knownKinds, h])
    have h2 : ¬ c.backend = "http" := fun h => hk (by simp [knownKinds, h])
    have h3 : ¬ c.backend = "s3" := fun h => hk (by simp [knownKinds, h])
    have h4 : ¬ c.backend = "gcs" := fun h => hk (by simp [knownKinds, h])
    simp [storageFactory, validateSettings, Except.map, h1, h2, h3, h4]

/-- Witness for C7: a raw record tagged s3 with no bucket fails with the
configuration error naming bucket, and a raw record tagged ftp fails with
the unsupported-kind error. -/
theorem factory_validation_errors_witness :
    storageFactory ⟨"s3", none, none, none, none, none⟩ 1 =
      Except.error (ConfigError.configurationError "bucket") ∧
    storageFactory ⟨"ftp", none, none, none, none, none⟩ 1 =
      Except.error (ConfigError.unsupportedKind "ftp") :=
  ⟨(factory_validation_errors ⟨"s3", none, none, none, none, none⟩ 1).1 "bucket" (by decide),
   (factory_validation_errors ⟨"ftp", none, none, none, none, none⟩ 1).2 (by decide)⟩

/-! ## Batch transfer orchestrator

Embeds download_images (examples/download_s3.py).  Each key in the input
list yields one download task, created eagerly before any result is
awaited; completed tasks are then consumed in completion order, and each
completed download immediately feeds the matching upload.  Awaiting a
failed download re-raises its error out of the loop, as does a failed
upload, aborting the remaining iterations.  Tasks are identified by their
position in the key list, so duplicate keys stay independent; dl and ul are
oracles giving each task download and upload outcome, and order is the
completion order of the download tasks, a permutation of the task
indices. -/

/-- Events of one orchestrator run, indexed by task position. -/
inductive OrchEvent
  | downloadStarted (i : Nat)
  | downloadCompleted (i : Nat)
  | uploadStarted (i : Nat)
  | uploadCompleted (i : Nat)
deriving DecidableEq, Repr

/-- Embeds the as_completed loop of download_images over the completion
order: awaiting the tagged future re-raises a download failure, aborting
the loop; otherwise the upload for the same task starts at once, an upload
failure likewise aborting the loop. -/
def orchLoop (dl : Nat → Except StorageError Bytes)
    (ul : Nat → Bytes → Except StorageError Unit) :
    List Nat → List OrchEvent × Except StorageError Unit
  | [] => ([], Except.ok ())
  | i :: rest =>
      match dl i with
      | Except.error e => ([OrchEvent.downloadCompleted i], Except.error e)
      | Except.ok b =>
          match ul i b with
          | Except.error e =>
              ([OrchEvent.downloadCompleted i, OrchEvent.uploadStarted i],
                Except.error e)
          | Except.ok _ =>
              let t := orchLoop dl ul rest
              (OrchEvent.downloadCompleted i :: OrchEvent.uploadStarted i ::
                OrchEvent.uploadCompleted i :: t.1, t.2)

/-- Embeds download_images: create one download task per key up front, then
run the as_completed loop over the completion order. -/
def download_images (n : Nat) (dl : Nat → Except StorageError Bytes)
    (ul : Nat → Bytes → Except StorageError Unit) (order : List Nat) :
    List OrchEvent × Except StorageError Unit :=
  let started := (List.range n).map OrchEvent.downloadStarted
  let t := orchLoop dl ul order
  (started ++ t.1, t.2)

/-- Index of an upload-started event, none for other events. -/
def uploadIdx : OrchEvent → Option Nat
  | OrchEvent.uploadStarted i => some i
  | _ => none

lemma uploadStarted_not_mem_started (n i : Nat) :
    OrchEvent.uploadStarted i ∉ (List.range n).map OrchEvent.downloadStarted := by
  simp

lemma split_beyond {α : Type} (s : List α) (t l : List α) (x : α) (r : List α)
    (h : s ++ t = l ++ x :: r) (hx : x ∉ s) :
    ∃ l2, l = s ++ l2 ∧ t = l2 ++ x :: r := by
  induction s generalizing l with
  | nil => exact ⟨l, rfl, h⟩
  | cons a s ih =>
      cases l with
      | nil =>
          injection h with h1 h2
          exact absurd (h1 ▸ List.mem_cons_self a s) hx
      | cons b l =>
          injection h with h1 h2
          obtain ⟨l2, hl, ht⟩ := ih l h2 (fun hm => hx (List.mem_cons_of_mem a hm))
          exact ⟨l2, by rw [hl, h1, List.cons_append], ht⟩

lemma orchLoop_upload_after_completed (dl : Nat → Except StorageError Bytes)
    (ul : Nat → Bytes → Except StorageError Unit) :
    ∀ (order : List Nat) (l : List OrchEvent) (i : Nat) (r : List OrchEvent),
      (orchLoop dl ul order).1 = l ++ OrchEvent.uploadStarted i :: r →
      OrchEvent.downloadCompleted i ∈ l := by
  intro order
  induction order with
  | nil =>
      intro l i r h
      simp only [orchLoop] at h
      cases l <;> simp at h
  | cons j rest ih =>
      intro l i r h
      cases hd : dl j with
      | error e =>
          rw [show orchLoop dl ul (j :: rest) =
              ([OrchEvent.downloadCompleted j], Except.error e) by
            simp [orchLoop, hd]] at h
          cases l with
          | nil => simp at h
          | cons a l =>
              injection h with h1 h2
              cases l <;> simp at h2
      | ok b =>
          cases hu : ul j b with
          | error e =>
              rw [show orchLoop dl ul (j :: rest) =
                  ([OrchEvent.downloadCompleted j, OrchEvent.uploadStarted j],
                    Except.error e) by
                simp [orchLoop, hd, hu]] at h
              cases l with
              | nil => simp at h
              | cons a l =>
                  injection h with h1 h2
                  cases l with
                  | nil =>
                      injection h2 with h3 h4
                      cases h3
                      rw [h1]
                      exact List.mem_singleton.mpr rfl
                  | cons b2 l =>
                      injection h2 with h3 h4
                      cases l <;> simp at h4
          | ok u =>
              rw [show orchLoop dl ul (j :: rest) =
                  (OrchEvent.downloadCompleted j :: OrchEvent.uploadStarted j ::
                    OrchEvent.uploadCompleted j :: (orchLoop dl ul rest).1,
                    (orchLoop dl ul rest).2) by
                simp [orchLoop, hd, hu]] at h
              cases l with
              | nil => simp at h
              | cons a l =>
                  injection h with h1 h2
                  cases l with
                  | nil =>
                      injection h2 with h3 h4
                      cases h3
                      rw [h1]
                      exact List.mem_singleton.mpr rfl
                  | cons b2 l =>
                      injection h2 with h3 h4
                      cases l with
                      | nil => simp at h4
                      | cons c l =>
                          injection h4 with h5 h6
                          have hmem := ih l i r h6
                          cases h1
                          exact List.mem_cons_of_mem _
                            (List.mem_cons_of_mem _ (List.mem_cons_of_mem _ hmem))

lemma orchLoop_uploads_preamble (dl : Nat → Except StorageError Bytes)
    (ul : Nat → Bytes → Except StorageError Unit) :
    ∀ order : List Nat,
      ∃ rest, ((orchLoop dl ul order).1.filterMap uploadIdx) ++ rest = order := by
  intro order
  induction order with
  | nil => exact ⟨[], rfl⟩
  | cons j rest ih =>
      cases hd : dl j with
      | error e => exact ⟨j :: rest, by simp [orchLoop, hd, uploadIdx]⟩
      | ok b =>
          cases hu : ul j b with
          | error e => exact ⟨rest, by simp [orchLoop, hd, hu, uploadIdx]⟩
          | ok u =>
              obtain ⟨tail, htail⟩ := ih
              exact ⟨tail, by simp [orchLoop, hd, hu, uploadIdx, htail]⟩

lemma filterMap_uploadIdx_started (n : Nat) :
    ((List.range n).map OrchEvent.downloadStarted).filterMap uploadIdx = [] := by
  induction List.range n with
  | nil => rfl
  | cons a l ih => simp [uploadIdx, ih]

lemma orchLoop_ok_append (dl : Nat → Except StorageError Bytes)
    (ul : Nat → Bytes → Except StorageError Unit) (pre rest : List Nat)
    (hpre : ∀ j ∈ pre, ∃ b, dl j = Except.ok b ∧ ul j b = Except.ok ()) :
    orchLoop dl ul (pre ++ rest) =
      (pre.flatMap (fun j => [OrchEvent.downloadCompleted j,
          OrchEvent.uploadStarted j, OrchEvent.uploadCompleted j]) ++
        (orchLoop dl ul rest).1,
        (orchLoop dl ul rest).2) := by
  induction pre with
  | nil => simp
  | cons j pre ih =>
      obtain ⟨b, hb, hub⟩ := hpre j (List.mem_cons_self j pre)
      have ih2 := ih (fun k hk => hpre k (List.mem_cons_of_mem j hk))
      simp [orchLoop, hb, hub, ih2]

/-- Download outcomes where task 0 fails and every other task succeeds. -/
def dlFirstFails : Nat → Except StorageError Bytes :=
  fun i => if i = 0 then Except.error (StorageError.transport "boom") else Except.ok [7]

/-- Upload outcomes that always succeed. -/
def ulAlwaysOk : Nat → Bytes → Except StorageError Unit :=
  fun _ _ => Except.ok ()

/-- Download outcomes that always succeed with payload [5]. -/
def dlAlwaysOk : Nat → Except StorageError Bytes :=
  fun _ => Except.ok [5]

/-- Counterexample to C2 as stated: with two keys, a valid completion order
and only the first completed download failing, the second key has a
successful download but its upload is never attempted, and only the first
failure reaches the caller. -/
theorem orchestrator_isolation_counterexample :
    [0, 1].Perm (List.range 2) ∧
    dlFirstFails 1 = Except.ok [7] ∧
    OrchEvent.uploadStarted 1 ∉ (download_images 2 dlFirstFails ulAlwaysOk [0, 1]).1 ∧
    (download_images 2 dlFirstFails ulAlwaysOk [0, 1]).2 =
      Except.error (StorageError.transport "boom") := by
  decide

/-- C2 (amended): every key has its download task started before any result
is awaited; but the first failure in completion order — whether the awaited
download raised or the immediately following upload raised — propagates to
the caller as the sole reported failure, and the uploads of keys completing
after it are not attempted. -/
theorem orchestrator_abort_on_first_failure
    (n : Nat) (dl : Nat → Except StorageError Bytes)
    (ul : Nat → Bytes → Except StorageError Unit) (order : List Nat)
    (e : StorageError) (hperm : order.Perm (List.range n)) :
    (∀ i, i < n → OrchEvent.downloadStarted i ∈ (download_images n dl ul order).1) ∧
    (∀ pre i post, order = pre ++ i :: post →
      (∀ j ∈ pre, ∃ b, dl j = Except.ok b ∧ ul j b = Except.ok ()) →
      dl i = Except.error e →
      (download_images n dl ul order).2 = Except.error e ∧
      ∀ j ∈ post, OrchEvent.uploadStarted j ∉ (download_images n dl ul order).1) ∧
    (∀ pre i post b, order = pre ++ i :: post →
      (∀ j ∈ pre, ∃ c, dl j = Except.ok c ∧ ul j c = Except.ok ()) →
      dl i = Except.ok b → ul i b = Except.error e →
      (download_images n dl ul order).2 = Except.error e ∧
      ∀ j ∈ post, OrchEvent.uploadStarted j ∉ (download_images n dl ul order).1) := by
  refine ⟨?_, ?_, ?_⟩
  · intro i hi
    simp only [download_images]
    exact List.mem_append_left _ (List.mem_map.mpr ⟨i, List.mem_range.mpr hi, rfl⟩)
  · intro pre i post horder hpre hdl
    have hstop : orchLoop dl ul (i :: post) =
        ([OrchEvent.downloadCompleted i], Except.error e) := by
      simp [orchLoop, hdl]
    constructor
    · simp only [download_images]
      rw [horder, orchLoop_ok_append dl ul pre (i :: post) hpre, hstop]
    · intro j hj hmem
      have hnd : order.Nodup := hperm.nodup_iff.mpr (List.nodup_range n)
      rw [horder] at hnd
      have hdisj := (List.nodup_append.mp hnd).2.2
      simp only [download_images] at hmem
      rw [horder, orchLoop_ok_append dl ul pre (i :: post) hpre, hstop] at hmem
      rcases List.mem_append.mp hmem with hm | hm
      · exact uploadStarted_not_mem_started n j hm
      · rcases List.mem_append.mp hm with hm2 | hm2
        · obtain ⟨k, hk, hkmem⟩ := List.mem_flatMap.mp hm2
          have hjk : j = k := by
            simpa using hkmem
          exact hdisj (hjk ▸ hk) (List.mem_cons_of_mem i hj)
        · simp at hm2
  · intro pre i post b horder hpre hdlb hul
    have hstop : orchLoop dl ul (i :: post) =
        ([OrchEvent.downloadCompleted i, OrchEvent.uploadStarted i], Except.error e) := by
      simp [orchLoop, hdlb, hul]
    constructor
    · simp only [download_images]
      rw [horder, orchLoop_ok_append dl ul pre (i :: post) hpre, hstop]
    · intro j hj hmem
      have hnd : order.Nodup := hperm.nodup_iff.mpr (List.nodup_range n)
      rw [horder] at hnd
      have hdisj := (List.nodup_append.mp hnd).2.2
      have hipost : i ∉ post :=
        (List.nodup_cons.mp (List.nodup_append.mp hnd).2.1).1
      simp only [download_images] at hmem
      rw [horder, orchLoop_ok_append dl ul pre (i :: post) hpre, hstop] at hmem
      rcases List.mem_append.mp hmem with hm | hm
      · exact uploadStarted_not_mem_started n j hm
      · rcases List.mem_append.mp hm with hm2 | hm2
        · obtain ⟨k, hk, hkmem⟩ := List.mem_flatMap.mp hm2
          have hjk : j = k := by
            simpa using hkmem
          exact hdisj (hjk ▸ hk) (List.mem_cons_of_mem i hj)
        · have hji : j = i := by
            simpa using hm2
          exact hipost (hji ▸ hj)

/-- Upload outcomes where task 0 fails and every other task succeeds. -/
def ulFirstFails : Nat → Bytes → Except StorageError Unit :=
  fun i _ => if i = 0 then Except.error (StorageError.transport "upload boom")
    else Except.ok ()

/-- Witness for C2 (amended): with two keys, when the first completed
download fails its error reaches the caller and the other upload is not
attempted; likewise when the first completed download succeeds but its
upload fails. -/
theorem orchestrator_abort_on_first_failure_witness :
    ((download_images 2 dlFirstFails ulAlwaysOk [0, 1]).2 =
      Except.error (StorageError.transport "boom") ∧
    OrchEvent.uploadStarted 1 ∉ (download_images 2 dlFirstFails ulAlwaysOk [0, 1]).1) ∧
    ((download_images 2 dlAlwaysOk ulFirstFails [0, 1]).2 =
      Except.error (StorageError.transport "upload boom") ∧
    OrchEvent.uploadStarted 1 ∉ (download_images 2 dlAlwaysOk ulFirstFails [0, 1]).1) := by
  have h := orchestrator_abort_on_first_failure 2 dlFirstFails ulAlwaysOk [0, 1]
    (StorageError.transport "boom") (by decide)
  have h2 := h.2.1 [] 0 [1] rfl (by simp) (by decide)
  have h' := orchestrator_abort_on_first_failure 2 dlAlwaysOk ulFirstFails [0, 1]
    (StorageError.transport "upload boom") (by decide)
  have h3 := h'.2.2 [] 0 [1] [5] rfl (by simp) (by decide) (by decide)
  exact ⟨⟨h2.1, h2.2 1 (by decide)⟩, ⟨h3.1, h3.2 1 (by decide)⟩⟩

/-- C3: an upload is never started before the download of the same task has
completed; the uploads that are processed follow the download completion
order (they form the processed front of it); and on a concrete run whose
completion order differs from the submission order, the uploads follow the
completion order [1, 0], not the submission order. -/
theorem upload_after_download_completion_order
    (n : Nat) (dl : Nat → Except StorageError Bytes)
    (ul : Nat → Bytes → Except StorageError Unit) (order : List Nat)
    (hperm : order.Perm (List.range n)) :
    (∀ l i r, (download_images n dl ul order).1 = l ++ OrchEvent.uploadStarted i :: r →
      OrchEvent.downloadCompleted i ∈ l) ∧
    (∃ rest, ((download_images n dl ul order).1.filterMap uploadIdx) ++ rest = order) ∧
    (download_images 2 dlAlwaysOk ulAlwaysOk [1, 0]).1.filterMap uploadIdx = [1, 0] := by
  refine ⟨?_, ?_, by decide⟩
  · intro l i r h
    simp only [download_images] at h
    obtain ⟨l2, hl, ht⟩ := split_beyond ((List.range n).map OrchEvent.downloadStarted)
      (orchLoop dl ul order).1 l (OrchEvent.uploadStarted i) r h
      (uploadStarted_not_mem_started n i)
    have hmem := orchLoop_upload_after_completed dl ul order l2 i r ht
    rw [hl]
    exact List.mem_append_right _ hmem
  · simp only [download_images]
    rw [List.filterMap_append, filterMap_uploadIdx_started]
    simpa using orchLoop_uploads_preamble dl ul order

/-- Witness for C3: in the staggered run with completion order [1, 0], the
upload of task 1 is preceded by the completion of download 1. -/
theorem upload_after_download_completion_order_witness :
    OrchEvent.downloadCompleted 1 ∈
      [OrchEvent.downloadStarted 0, OrchEvent.downloadStarted 1,
        OrchEvent.downloadCompleted 1] := by
  have h := upload_after_download_completion_order 2 dlAlwaysOk ulAlwaysOk [1, 0] (by decide)
  exact h.1
    [OrchEvent.downloadStarted 0, OrchEvent.downloadStarted 1,
      OrchEvent.downloadCompleted 1] 1
    [OrchEvent.uploadCompleted 1, OrchEvent.downloadCompleted 0,
      OrchEvent.uploadStarted 0, OrchEvent.uploadCompleted 0] (by decide)
